import Mathlib

/-
Verification of the real-time transport and call-signaling core of the
LearningSaintTech/vibgyorReactTest client.

The definitions below are shallow embeddings of the JavaScript source:
  * `SocketService.*`  embeds src/services/enhancedSocketService.js
    (listener registration `on`/`off`, the internal `emitEvent` fan-out,
    the stored-WebRTC-event buffer, the outbound message queue `emit` /
    `processMessageQueue`, and the reconnection-failure handler);
  * `VideoCall.*`      embeds src/components/Call/EnhancedVideoCall.jsx
    (the signaling handlers `handleIncomingOffer` / `handleIncomingAnswer`
    / `handleIncomingIceCandidate`, the pending-signal queue,
    `processQueuedIceCandidates`, quality monitoring, `endCall`,
    `rejectCall` and `cleanup`);
  * `ChatPage.*`       embeds src/pages/EnhancedChatPage.jsx
    (the session registry: `activeCall` / `incomingCall` state and the
    call-lifecycle handlers).

Event payloads, SDP descriptions, ICE candidates, callbacks and call
identifiers are represented by natural-number tags; only their identity
matters to the properties proved here.  Asynchronous `await` chains are
modelled as sequential state transformations (the source runs on a
single-threaded event loop, and every property concerns the completed
effect of a handler).  External collaborators (the Socket.IO transport,
the HTTP call API, the browser media engine) are modelled by explicit
outcome parameters and by observation logs recorded in the state.
-/

namespace SocketService

/-- A raw substring test, used to embed JavaScript's
`String.prototype.includes` (the source checks `event.includes('webrtc')`
inside `on`). -/
def charsContain (hay pat : List Char) : Bool :=
  match hay with
  | [] => pat.isEmpty
  | _ :: t => if pat.isPrefixOf hay then true else charsContain t pat

/-- Embedding of `s.includes(sub)` as `strContains s sub`. -/
def strContains (s sub : String) : Bool :=
  charsContain s.data sub.data

/-- State of the `EnhancedSocketService` singleton, restricted to the
fields that the listener-registration / signal-buffer logic touches.

`eventListeners` embeds the `Map<string, Set<callback>>`: an association
list from event name to the list of registered callback identifiers
(distinct, mirroring `Set` membership).  `stored` embeds
`storedWebRTCEvents : Map<string, data[]>`.  `deliveries` is the
observation log: one entry `(event, data, listener)` per callback
invocation performed by `emitEvent`. -/
structure BufSt where
  eventListeners : List (String × List Nat)
  stored : List (String × List Nat)
  deliveries : List (String × Nat × Nat)
  deriving Repr, DecidableEq

/-- The fresh service constructed by `new EnhancedSocketService()`:
empty listener map, empty stored-event map. -/
def BufSt.init : BufSt := ⟨[], [], []⟩

/-- Look up the listener set registered under an event name
(`this.eventListeners.get(event)`); absent keys give `[]`, matching the
code's treatment of a missing entry as "no listeners". -/
def listenersOf (s : BufSt) (ev : String) : List Nat :=
  match s.eventListeners.lookup ev with
  | some l => l
  | none => []

/-- Embeds `emitEvent(event, data)` (enhancedSocketService.js:422-462): invokes
every callback registered under `event` with `data`.  Each invocation is
recorded in the delivery log. -/
def emitEvent (ev : String) (d : Nat) (s : BufSt) : BufSt :=
  { s with deliveries := s.deliveries ++ (listenersOf s ev).map (fun h => (ev, d, h)) }

/-- Update an association list at a key with `f`, inserting `f []` when
the key is absent. -/
def assocUpdate (k : String) (f : List Nat → List Nat)
    : List (String × List Nat) → List (String × List Nat)
  | [] => [(k, f [])]
  | (k', v) :: t => if k' = k then (k', f v) :: t else (k', v) :: assocUpdate k f t

/-- Remove a key from an association list (`Map.delete`). -/
def assocErase (k : String)
    : List (String × List Nat) → List (String × List Nat)
  | [] => []
  | (k', v) :: t => if k' = k then t else (k', v) :: assocErase k t

/-- Embeds `storeWebRTCEvent(eventType, data)` (js:533-539): append `data` to
the stored list for `eventType`, creating the entry if absent. -/
def storeWebRTCEvent (ev : String) (d : Nat) (s : BufSt) : BufSt :=
  { s with stored := assocUpdate ev (· ++ [d]) s.stored }

/-- Embeds `processStoredWebRTCEvents(eventType)` (js:545-558): if events are
stored under `eventType`, re-emit each one in order via `emitEvent`,
then delete the stored entry. -/
def processStoredWebRTCEvents (ev : String) (s : BufSt) : BufSt :=
  match s.stored.lookup ev with
  | none => s
  | some ds =>
      let s1 := ds.foldl (fun acc d => emitEvent ev d acc) s
      { s1 with stored := assocErase ev s1.stored }

/-- Add a callback to the `Set` under an event name
(`this.eventListeners.get(event).add(callback)`): duplicates are not
re-added. -/
def addListener (ev : String) (h : Nat) (s : BufSt) : BufSt :=
  { s with eventListeners :=
      assocUpdate ev (fun l => if h ∈ l then l else l ++ [h]) s.eventListeners }

/-- Embeds `on(event, callback)` (js:469-488): register the callback; when the
event name contains `"webrtc"`, drain the stored-event buffer for this
event name.  (`on` is a reserved token in Lean, hence `onEvent`.) -/
def onEvent (ev : String) (h : Nat) (s : BufSt) : BufSt :=
  let s1 := addListener ev h s
  if strContains ev "webrtc" then processStoredWebRTCEvents ev s1 else s1

/-- One inbound socket arrival or one `on` registration.  The six
arrival constructors correspond to the six `socket.on(...)` signaling
handlers installed by `setupEventHandlers` (js:277-380): the
underscore-format events `webrtc_offer` / `webrtc_answer` /
`webrtc_ice_candidate` and the colon-format events `webrtc:offer` /
`webrtc:answer` / `webrtc:ice-candidate`. -/
inductive BufOp where
  | arriveOfferU (d : Nat)
  | arriveAnswerU (d : Nat)
  | arriveIceU (d : Nat)
  | arriveOfferC (d : Nat)
  | arriveAnswerC (d : Nat)
  | arriveIceC (d : Nat)
  | register (ev : String) (h : Nat)
  deriving Repr, DecidableEq

/-- The store-then-emit shape shared by the colon-format offer handler
(js:311-338) and the colon-format ICE handler (js:356-380): when no
listener is registered under the underscore-format name `ev`, store the
payload first; in either case, emit. -/
def colonArrive (ev : String) (d : Nat) (s : BufSt) : BufSt :=
  let s1 := if (listenersOf s ev).isEmpty then storeWebRTCEvent ev d s else s
  emitEvent ev d s1

/-- Transition of one operation.  The underscore-format handlers
(js:277-308) only call `emitEvent`.  The colon-format offer handler
(js:311-338) and ICE handler (js:356-380) first store the payload when
no listener is registered under the underscore-format name, then call
`emitEvent`; the colon-format answer handler (js:340-354) only calls
`emitEvent`. -/
def bufStep (s : BufSt) : BufOp → BufSt
  | .arriveOfferU d => emitEvent "webrtc_offer" d s
  | .arriveAnswerU d => emitEvent "webrtc_answer" d s
  | .arriveIceU d => emitEvent "webrtc_ice_candidate" d s
  | .arriveOfferC d => colonArrive "webrtc_offer" d s
  | .arriveAnswerC d => emitEvent "webrtc_answer" d s
  | .arriveIceC d => colonArrive "webrtc_ice_candidate" d s
  | .register ev h => onEvent ev h s

/-- Run a sequence of arrivals/registrations from a state. -/
def bufRun (s : BufSt) (ops : List BufOp) : BufSt :=
  ops.foldl bufStep s

/-! ### Listener fan-out with per-callback exception isolation

`emitEvent` (js:451-458) iterates the listener set with
`listeners.forEach(callback => { try { callback(data) } catch (error)
{ console.error(...) } })`.  Here each callback is modelled with its
behaviour: a function from the payload to `Except String Unit`, where
`.error` is a thrown exception.  `emitEventRun` returns, for each
listener in order, its identifier together with the exception it threw
(if any); the `try`/`catch` is what makes the result a plain list
rather than an `Except`. -/

/-- A registered callback: an identifier plus its behaviour on a
payload. -/
structure Callback where
  id : Nat
  run : Nat → Except String Unit

/-- The `forEach` loop body of `emitEvent`: invoke every callback on the
payload, catching (and recording) any exception, and continue with the
rest of the list. -/
def emitEventRun (ls : List Callback) (d : Nat) : List (Nat × Option String) :=
  match ls with
  | [] => []
  | cb :: rest =>
      let entry := match cb.run d with
        | .ok _ => (cb.id, (none : Option String))
        | .error e => (cb.id, some e)
      entry :: emitEventRun rest d

/-! ### Outbound queue (`emit` / `processMessageQueue`) -/

/-- Socket-service state relevant to outbound sending: connection flag,
socket handle presence, the `messageQueue`, and the log of payloads
actually handed to `socket.emit`. -/
structure QueueSt where
  isConnected : Bool
  socketPresent : Bool
  messageQueue : List (String × Nat)
  transmitted : List (String × Nat)
  deriving Repr, DecidableEq

/-- Embeds `emit(event, data)` (js:565-575): while disconnected the pair is
pushed onto `messageQueue` (no exception is ever raised — the function
is total); otherwise, if a socket handle exists, the payload is
transmitted. -/
def emit (ev : String) (d : Nat) (s : QueueSt) : QueueSt :=
  if !s.isConnected then
    { s with messageQueue := s.messageQueue ++ [(ev, d)] }
  else if s.socketPresent then
    { s with transmitted := s.transmitted ++ [(ev, d)] }
  else s

/-- The body of `processMessageQueue` (js:580-585): `while (queue.length
> 0) { const m = queue.shift(); emit(m) }`, unrolled with explicit fuel.
The source only calls it from the `connect` handler, where
`isConnected` is true; there each iteration shortens the queue by one,
so fuel equal to the initial queue length makes this recursion coincide
with the source's `while` loop. -/
def drainLoop : Nat → QueueSt → QueueSt
  | 0, s => s
  | fuel + 1, s =>
      match s.messageQueue with
      | [] => s
      | (ev, d) :: rest => drainLoop fuel (emit ev d { s with messageQueue := rest })

/-- Embeds `processMessageQueue()` (js:580-585). -/
def processMessageQueue (s : QueueSt) : QueueSt :=
  drainLoop s.messageQueue.length s

/-- The `socket.on('connect', ...)` handler (js:77-98), restricted to
the queue-related effects: mark connected and flush the queue. -/
def onConnectSuccess (s : QueueSt) : QueueSt :=
  processMessageQueue { s with isConnected := true, socketPresent := true }

/-! ### Reconnection exhaustion -/

/-- Value of `reconnectionAttempts` in the `io(...)` options (js:69). -/
def ioReconnectionAttempts : Nat := 3

/-- Value of `reconnectionDelay` in the `io(...)` options, milliseconds (js:70). -/
def ioReconnectionDelayMs : Nat := 2000

/-- Value of `reconnectionDelayMax` in the `io(...)` options, milliseconds (js:71). -/
def ioReconnectionDelayMaxMs : Nat := 10000

/-- Connection-lifecycle state: the two flags, the reconnection
counter, the registered handler map, and the log of event names the
service has surfaced to its subscribers via `emitEvent`. -/
structure ConnSt where
  isConnected : Bool
  isConnecting : Bool
  reconnectAttempts : Nat
  eventListeners : List (String × List Nat)
  emitted : List String
  deriving Repr, DecidableEq

/-- The `socket.on('disconnect', ...)` handler (js:118-135): clear both
flags and surface a `disconnection` event. -/
def onDisconnect (s : ConnSt) : ConnSt :=
  { s with isConnected := false, isConnecting := false,
           emitted := s.emitted ++ ["disconnection"] }

/-- The `socket.on('reconnect_attempt', ...)` handler (js:138-152):
record the attempt number; unless a connect is already in flight,
surface a `reconnection_attempt` event. -/
def onReconnectAttempt (n : Nat) (s : ConnSt) : ConnSt :=
  let s1 := { s with reconnectAttempts := n }
  if s1.isConnecting then s1
  else { s1 with emitted := s1.emitted ++ ["reconnection_attempt"] }

/-- The `socket.on('reconnect_failed', ...)` handler (js:165-172), run
by the transport after the bounded retries are exhausted: clear
`isConnecting` and surface a `reconnection_failed` event.  It touches
neither `isConnected` nor `eventListeners`. -/
def onReconnectFailed (s : ConnSt) : ConnSt :=
  { s with isConnecting := false,
           emitted := s.emitted ++ ["reconnection_failed"] }

/-- The full exhaustion scenario: the transport drops the connection,
makes its bounded reconnection attempts, and gives up. -/
def reconnectExhausted (s : ConnSt) (attempts : List Nat) : ConnSt :=
  onReconnectFailed (attempts.foldl (fun acc n => onReconnectAttempt n acc) (onDisconnect s))

end SocketService

namespace VideoCall

/-- The `callStatus` values used by EnhancedVideoCall.jsx. -/
inductive CallStatus where
  | initiating | ringing | incoming | connected | ended | rejected | failed
  deriving Repr, DecidableEq

/-- Values of `RTCPeerConnection.connectionState`. -/
inductive ConnState where
  | fresh | connecting | connected | disconnected | failed | closed
  deriving Repr, DecidableEq

/-- The browser peer connection, as seen through the operations the
component performs on it.  `appliedRemoteDescs` and
`addedIceCandidates` are the traces of `setRemoteDescription` /
`addIceCandidate` calls issued to the media engine, in order. -/
structure PeerConn where
  remoteDescription : Option Nat
  localDescription : Option Nat
  appliedRemoteDescs : List Nat
  addedIceCandidates : List Nat
  connectionState : ConnState
  deriving Repr, DecidableEq

/-- Embeds `pc.setRemoteDescription(sdp)`: records the description and logs
the application. -/
def setRemoteDescription (sdp : Nat) (pc : PeerConn) : PeerConn :=
  { pc with remoteDescription := some sdp,
            appliedRemoteDescs := pc.appliedRemoteDescs ++ [sdp] }

/-- Embeds `pc.addIceCandidate(c)`: logs the applied candidate. -/
def addIceCandidate (c : Nat) (pc : PeerConn) : PeerConn :=
  { pc with addedIceCandidates := pc.addedIceCandidates ++ [c] }

/-- A signaling event payload as received from the socket service:
`{ callId, offer?, answer?, candidate? }`. -/
structure EvData where
  callId : Nat
  offer : Option Nat
  answer : Option Nat
  candidate : Option Nat
  deriving Repr, DecidableEq

/-- The `eventType` tag used by `queueSignal`. -/
inductive SigKind where
  | offer | answer | iceCandidate
  deriving Repr, DecidableEq

/-- Derived connection-quality tier (the `connectionQuality` state). -/
inductive Quality where
  | excellent | good | fair | poor
  deriving Repr, DecidableEq

/-- Component state of EnhancedVideoCall, restricted to the fields the
signaling, quality and teardown logic touches.  Streams are lists of
track identifiers; `stoppedTracks` logs each `track.stop()` call and
`pcClosedCount` each `peerConnection.close()` call.  `sentAnswers`
logs each answer handed to `callService.sendAnswer`. -/
structure CallSt where
  callStatus : CallStatus
  peerConnection : Option PeerConn
  pendingSignals : List (Nat × List (SigKind × EvData))
  connectionQuality : Quality
  errorMsg : Option String
  localStream : Option (List Nat)
  screenStream : Option (List Nat)
  stoppedTracks : List Nat
  pcClosedCount : Nat
  isWebRTCSetup : Bool
  durationTimerActive : Bool
  qualityTimerActive : Bool
  localVideoSrc : Option (List Nat)
  remoteVideoSrc : Option (List Nat)
  onCallEndInvoked : Bool
  sentAnswers : List Nat
  serverEndRequested : Bool
  serverRejectRequested : Bool
  deriving Repr, DecidableEq

/-- Update the entry of `pendingSignals` at `callId` with `f`
(JavaScript object-spread update `{...prev, [callId]: f(prev[callId] ||
[])}`). -/
def pendUpdate (callId : Nat) (f : List (SigKind × EvData) → List (SigKind × EvData))
    : List (Nat × List (SigKind × EvData)) → List (Nat × List (SigKind × EvData))
  | [] => [(callId, f [])]
  | (k, v) :: t => if k = callId then (k, f v) :: t else (k, v) :: pendUpdate callId f t

/-- Embeds `pendingSignals[callId] || []`. -/
def pendingOf (s : CallSt) (callId : Nat) : List (SigKind × EvData) :=
  match s.pendingSignals.lookup callId with
  | some l => l
  | none => []

/-- Embeds `queueSignal(eventType, data)` (jsx:51-57): append the event to the
pending list keyed by `data.callId`. -/
def queueSignal (k : SigKind) (d : EvData) (s : CallSt) : CallSt :=
  { s with pendingSignals := pendUpdate d.callId (· ++ [(k, d)]) s.pendingSignals }

/-- The `forEach` body of `processQueuedIceCandidates` (jsx:518-524):
apply one queued candidate when a peer connection exists and the
payload carries a candidate. -/
def applyQueuedStep (acc : CallSt) (p : SigKind × EvData) : CallSt :=
  match acc.peerConnection, p.2.candidate with
  | some pc, some c => { acc with peerConnection := some (addIceCandidate c pc) }
  | _, _ => acc

/-- Embeds `processQueuedIceCandidates(callId)` (jsx:514-533): take the
queued `ice-candidate` signals for `callId`, apply each candidate in
order (when a peer connection exists and the payload carries a
candidate), then — only if any were queued — remove exactly the
`ice-candidate` entries for that call from `pendingSignals`. -/
def processQueuedIceCandidates (callId : Nat) (s : CallSt) : CallSt :=
  let queued := (pendingOf s callId).filter (fun p => p.1 = SigKind.iceCandidate)
  let s1 := queued.foldl applyQueuedStep s
  if queued.length > 0 then
    let keep := fun (l : List (SigKind × EvData)) =>
      l.filter (fun p => ¬ p.1 = SigKind.iceCandidate)
    { s1 with pendingSignals := pendUpdate callId (fun _ => keep (pendingOf s1 callId)) s1.pendingSignals }
  else s1

/-- Embeds `setupWebRTC(callId)` (jsx:310-423), success path: create a fresh
peer connection, acquire the local media `stream`, attach it, and set
the setup flag. -/
def setupWebRTC (stream : List Nat) (s : CallSt) : CallSt :=
  { s with peerConnection := some ⟨none, none, [], [], ConnState.fresh⟩,
           localStream := some stream,
           localVideoSrc := some stream,
           isWebRTCSetup := true }

/-- The answer the media engine generates for an offer
(`createAnswer`); only its identity matters, so it is tagged by the
offer it answers. -/
def answerFor (offer : Nat) : Nat := offer

/-- Embeds `handleIncomingOffer(offer, callId)` (jsx:458-498), success path:
set up WebRTC if no peer connection exists yet, apply the remote
description (unconditionally), drain queued ICE candidates, then
create, apply and send the local answer. -/
def handleIncomingOffer (offer callId : Nat) (stream : List Nat) (s : CallSt) : CallSt :=
  let s1 := if s.peerConnection.isNone then setupWebRTC stream s else s
  match s1.peerConnection with
  | none => s1
  | some pc =>
      let s2 := { s1 with peerConnection := some (setRemoteDescription offer pc) }
      let s3 := processQueuedIceCandidates callId s2
      match s3.peerConnection with
      | none => s3
      | some pc2 =>
          { s3 with peerConnection := some { pc2 with localDescription := some (answerFor offer) },
                    sentAnswers := s3.sentAnswers ++ [answerFor offer] }

/-- The `handleIncomingOfferEvent` listener (jsx:134-148):
process the offer when the call identifier matches (or the call is
already `connected`/`ringing`), otherwise queue it.  `currentCallId` is
the identifier the listener closure captured. -/
def handleIncomingOfferEvent (currentCallId : Nat) (d : EvData) (stream : List Nat)
    (s : CallSt) : CallSt :=
  if d.callId = currentCallId ∨ s.callStatus = CallStatus.connected
      ∨ s.callStatus = CallStatus.ringing then
    match d.offer with
    | some o => handleIncomingOffer o d.callId stream s
    | none => s
  else queueSignal SigKind.offer d s

/-- The `handleIncomingAnswer` listener (jsx:150-175): when the call
matches (or is `connected`/`ringing`), apply the answer as remote
description only if a peer connection exists, the payload carries an
answer, and no remote description is set yet; then drain queued ICE
candidates.  Otherwise queue the event. -/
def handleIncomingAnswer (currentCallId : Nat) (d : EvData) (s : CallSt) : CallSt :=
  if d.callId = currentCallId ∨ s.callStatus = CallStatus.connected
      ∨ s.callStatus = CallStatus.ringing then
    match s.peerConnection, d.answer with
    | some pc, some a =>
        if pc.remoteDescription = none then
          processQueuedIceCandidates d.callId
            { s with peerConnection := some (setRemoteDescription a pc) }
        else s
    | _, _ => s
  else queueSignal SigKind.answer d s

/-- The `handleIncomingIceCandidate` listener (jsx:177-208): when the
call matches (or is `connected`/`ringing`) and a peer connection with a
remote description exists, apply the candidate; with no remote
description yet, queue it; with no peer connection (or no candidate
payload), do nothing.  On a call-identifier mismatch, queue it. -/
def handleIncomingIceCandidate (currentCallId : Nat) (d : EvData) (s : CallSt) : CallSt :=
  if d.callId = currentCallId ∨ s.callStatus = CallStatus.connected
      ∨ s.callStatus = CallStatus.ringing then
    match s.peerConnection, d.candidate with
    | some pc, some c =>
        if pc.remoteDescription.isSome then
          { s with peerConnection := some (addIceCandidate c pc) }
        else queueSignal SigKind.iceCandidate d s
    | _, _ => s
  else queueSignal SigKind.iceCandidate d s

/-- Period of the `startQualityMonitoring` interval, milliseconds
(jsx:768). -/
def qualityCheckIntervalMs : Nat := 5000

/-- The tier computation inside the quality-monitoring callback
(jsx:755-763), on the sampled packet-loss percentage and video bitrate
in kbps. -/
def computeConnectionQuality (packetLoss videoBitrate : ℚ) : Quality :=
  if packetLoss < 1 ∧ videoBitrate > 500 then Quality.excellent
  else if packetLoss < 3 ∧ videoBitrate > 300 then Quality.good
  else if packetLoss < 5 ∧ videoBitrate > 200 then Quality.fair
  else Quality.poor

/-- Modelled from the spec sentence of C8 ("loss < 1% and bitrate >
500 kbps gives excellent; otherwise loss < 3% and bitrate > 300 gives
good; otherwise loss < 5% and bitrate > 200 gives fair; otherwise
poor"), for comparison with the implementation's tier computation. -/
def specQualityTier (packetLoss videoBitrate : ℚ) : Quality :=
  if packetLoss < 1 ∧ videoBitrate > 500 then Quality.excellent
  else if packetLoss < 3 ∧ videoBitrate > 300 then Quality.good
  else if packetLoss < 5 ∧ videoBitrate > 200 then Quality.fair
  else Quality.poor

/-- One firing of the quality-monitoring interval callback
(jsx:735-768): sample and retier only while the peer connection exists
and is in the `connected` state. -/
def qualityTick (packetLoss videoBitrate : ℚ) (s : CallSt) : CallSt :=
  match s.peerConnection with
  | some pc =>
      if pc.connectionState = ConnState.connected then
        { s with connectionQuality := computeConnectionQuality packetLoss videoBitrate }
      else s
  | none => s

/-- The `onconnectionstatechange` handler (jsx:370-393): reaching
`connected` marks the call connected and starts quality monitoring;
`disconnected`/`failed` mark the call failed with an error. -/
def onConnectionStateChange (state : ConnState) (s : CallSt) : CallSt :=
  let s0 := match s.peerConnection with
    | some pc => { s with peerConnection := some { pc with connectionState := state } }
    | none => s
  match state with
  | ConnState.connected =>
      { s0 with callStatus := CallStatus.connected, qualityTimerActive := true }
  | ConnState.disconnected =>
      { s0 with callStatus := CallStatus.failed, errorMsg := some "Connection disconnected" }
  | ConnState.failed =>
      { s0 with callStatus := CallStatus.failed,
                errorMsg := some "Connection failed - check network connectivity" }
  | _ => s0

/-- Embeds `cleanup()` (jsx:771-811): stop every local and screen-share
track, close and release the peer connection, reset the setup flag,
clear both intervals, and detach both video elements. -/
def cleanup (s : CallSt) : CallSt :=
  let s1 := match s.localStream with
    | some ts => { s with stoppedTracks := s.stoppedTracks ++ ts, localStream := none }
    | none => s
  let s2 := match s1.screenStream with
    | some ts => { s1 with stoppedTracks := s1.stoppedTracks ++ ts, screenStream := none }
    | none => s1
  let s3 := match s2.peerConnection with
    | some _ => { s2 with pcClosedCount := s2.pcClosedCount + 1, peerConnection := none }
    | none => s2
  { s3 with isWebRTCSetup := false, durationTimerActive := false,
            qualityTimerActive := false, localVideoSrc := none, remoteVideoSrc := none }

/-- Embeds `endCall()` (jsx:581-604).  `currentCallId` is `propCallId ||
incomingCallData?.callId`; `serverThrows` says whether the awaited
`callService.endCall` rejects.  Both the success path and the `catch`
block set the status to `ended`, run `cleanup`, and invoke
`onCallEnd`. -/
def endCall (currentCallId : Option Nat) (serverThrows : Bool) (s : CallSt) : CallSt :=
  if currentCallId.isSome ∧ serverThrows then
    { cleanup { s with serverEndRequested := true, callStatus := CallStatus.ended }
        with onCallEndInvoked := true }
  else
    { cleanup { s with serverEndRequested := s.serverEndRequested || currentCallId.isSome,
                       callStatus := CallStatus.ended }
        with onCallEndInvoked := true }

/-- Embeds `rejectCall()` (jsx:560-579).  Both the success path and the
`catch` block set the status to `rejected` and invoke `onCallEnd`;
neither path calls `cleanup`. -/
def rejectCall (currentCallId : Option Nat) (serverThrows : Bool) (s : CallSt) : CallSt :=
  if currentCallId.isSome ∧ serverThrows then
    { s with serverRejectRequested := true, callStatus := CallStatus.rejected,
             onCallEndInvoked := true }
  else
    { s with serverRejectRequested := s.serverRejectRequested || currentCallId.isSome,
             callStatus := CallStatus.rejected, onCallEndInvoked := true }

end VideoCall

namespace ChatPage

/-- The `activeCall` object held by EnhancedChatPage (`callId`,
`chatId`, `type`, `status`, with `otherUser`/`isIncoming` omitted as
inert). -/
structure ActiveCall where
  callId : Nat
  chatId : Nat
  ctype : String
  status : String
  deriving Repr, DecidableEq

/-- An incoming-call event payload (`call_incoming` data). -/
structure IncomingData where
  callId : Nat
  chatId : Nat
  ctype : String
  deriving Repr, DecidableEq

/-- Result object of a successful `callService.initiateCall` await. -/
structure InitResult where
  success : Bool
  callId : Nat
  chatId : Nat
  ctype : String
  status : String
  deriving Repr, DecidableEq

/-- Page state: the session registry (`activeCall`, `incomingCall`),
the error banner, and logs of the HTTP call-control requests actually
issued. -/
structure PageSt where
  activeCall : Option ActiveCall
  incomingCall : Option IncomingData
  errorMsg : Option String
  initiateRequests : List (Nat × String)
  acceptRequests : List Nat
  rejectRequests : List Nat
  deriving Repr, DecidableEq

/-- Embeds `handleCallInitiate(chat, type)` (jsx:200-222): with a call already
active, `throw new Error('Another call is already active')` is caught
by the surrounding `try` and surfaced via `setError` — no HTTP request
is made and no call is queued.  Otherwise the HTTP initiate request is
awaited (`outcome`: `.error` for a rejection/throw, `.ok` for a
response) and, on `success`, the returned call becomes active. -/
def handleCallInitiate (chat : Nat) (ctype : String) (outcome : Except String InitResult)
    (s : PageSt) : PageSt :=
  if s.activeCall.isSome then
    { s with errorMsg := some "Another call is already active" }
  else
    let s1 := { s with initiateRequests := s.initiateRequests ++ [(chat, ctype)] }
    match outcome with
    | Except.error m => { s1 with errorMsg := some m }
    | Except.ok r =>
        if r.success then
          { s1 with activeCall := some ⟨r.callId, r.chatId, r.ctype, r.status⟩ }
        else s1

/-- Embeds `handleIncomingCall(callData)` (jsx:229-243): if the event's call
identifier equals the active call's, reconcile the active call's status
to `connected`; otherwise record the event as the pending incoming
call. -/
def handleIncomingCall (d : IncomingData) (s : PageSt) : PageSt :=
  match s.activeCall with
  | some ac =>
      if ac.callId = d.callId then
        { s with activeCall := some { ac with status := "connected" } }
      else { s with incomingCall := some d }
  | none => { s with incomingCall := some d }

/-- Embeds `handleCallEnded` (jsx:288-292): clear both the incoming and the
active call. -/
def handleCallEnded (s : PageSt) : PageSt :=
  { s with incomingCall := none, activeCall := none }

/-- Embeds `handleCallRejected` (jsx:281-286). -/
def handleCallRejected (s : PageSt) : PageSt :=
  { s with incomingCall := none, activeCall := none,
           errorMsg := some "Call was rejected" }

/-- The non-duplicate tail of `handleAcceptIncomingCall` (jsx:316-348):
issue the HTTP accept request and handle its outcome; an error whose
message contains `'not in ringing state'` is treated as
already-connected. -/
def acceptProceed (ic : IncomingData) (outcome : Except String Bool) (s : PageSt) : PageSt :=
  let s1 := { s with acceptRequests := s.acceptRequests ++ [ic.callId] }
  match outcome with
  | Except.ok success =>
      if success then
        { s1 with activeCall := some ⟨ic.callId, ic.chatId, ic.ctype, "connected"⟩,
                  incomingCall := none }
      else s1
  | Except.error m =>
      if SocketService.strContains m "not in ringing state" then
        { s1 with activeCall := some ⟨ic.callId, ic.chatId, ic.ctype, "connected"⟩,
                  incomingCall := none }
      else { s1 with errorMsg := some m, incomingCall := none }

/-- Embeds `handleAcceptIncomingCall` (jsx:301-349): no-op without a pending
incoming call; when the incoming call's identifier equals the active
call's, reconcile the status to `connected` and return early (no HTTP
request, no error); otherwise proceed with the accept request. -/
def handleAcceptIncomingCall (outcome : Except String Bool) (s : PageSt) : PageSt :=
  match s.incomingCall with
  | none => s
  | some ic =>
      match s.activeCall with
      | some ac =>
          if ac.callId = ic.callId then
            { s with activeCall := some { ac with status := "connected" },
                     incomingCall := none }
          else acceptProceed ic outcome s
      | none => acceptProceed ic outcome s

end ChatPage

/-! ## Concrete states used by counterexamples and witnesses -/

namespace SocketService

/-- A well-behaved callback. -/
def cbOk (n : Nat) : Callback := ⟨n, fun _ => Except.ok ()⟩

/-- A callback that throws on every payload. -/
def cbThrow (n : Nat) : Callback := ⟨n, fun _ => Except.error "listener crashed"⟩

/-- A connected service with one registered `call_incoming` subscriber
and no events surfaced yet. -/
def connSt0 : ConnSt := ⟨true, false, 0, [("call_incoming", [7])], []⟩

end SocketService

namespace VideoCall

/-- A freshly created peer connection. -/
def basePC : PeerConn := ⟨none, none, [], [], ConnState.fresh⟩

/-- A mounted callee component before WebRTC setup: status `incoming`,
no peer connection, nothing pending. -/
def baseCallSt : CallSt :=
  ⟨CallStatus.incoming, none, [], Quality.good, none, none, none, [], 0,
   false, false, false, none, none, false, [], false, false⟩

/-- An ICE-candidate event payload. -/
def iceEv (callId c : Nat) : EvData := ⟨callId, none, none, some c⟩

/-- An offer event payload. -/
def offerEv (callId o : Nat) : EvData := ⟨callId, some o, none, none⟩

/-- A call with live local media and a peer connection, ready to be
torn down. -/
def liveCallSt : CallSt :=
  { baseCallSt with localStream := some [1, 2], peerConnection := some basePC }

end VideoCall

namespace ChatPage

/-- A page with one active (non-terminal) call `1` on chat `10`. -/
def busyPageSt : PageSt := ⟨some ⟨1, 10, "audio", "ringing"⟩, none, none, [], [], []⟩

/-- An incoming-call event for a different call `2`. -/
def secondIncoming : IncomingData := ⟨2, 11, "video"⟩

end ChatPage

/-! ## Theorems -/

namespace SocketService

/-- Every entry of the fan-out record carries the identifier of the
corresponding listener: the loop never skips a listener. -/
theorem emitEventRun_ids (ls : List Callback) (d : Nat) :
    (emitEventRun ls d).map Prod.fst = ls.map Callback.id := by
  induction ls with
  | nil => rfl
  | cons cb rest ih =>
      cases hr : cb.run d <;> simp [emitEventRun, hr, ih]

/-- C9: event fan-out isolates subscriber failures.  For a listener
list with a callback that throws on the payload, the dispatch loop (a)
still records one invocation per registered listener, in order, and (b)
records exactly the thrown error for the failing callback and proceeds
to invoke every later listener — the iteration result is a total list,
so the dispatch itself never propagates the exception. -/
theorem emitEvent_isolates_listener_failures
    (pre post : List Callback) (cb : Callback) (d : Nat) (e : String)
    (hthrow : cb.run d = Except.error e) :
    emitEventRun (pre ++ cb :: post) d
      = emitEventRun pre d ++ (cb.id, some e) :: emitEventRun post d
    ∧ (emitEventRun (pre ++ cb :: post) d).map Prod.fst
      = (pre ++ cb :: post).map Callback.id := by
  refine ⟨?_, emitEventRun_ids _ d⟩
  induction pre with
  | nil => simp [emitEventRun, hthrow]
  | cons hd tl ih =>
      cases hr : hd.run d <;> simp [emitEventRun, hr, ih]

/-- Witness for C9 at a concrete input: three listeners, the middle one
throwing. -/
theorem emitEvent_isolates_listener_failures_witness :
    emitEventRun ([cbOk 0] ++ cbThrow 1 :: [cbOk 2]) 5
      = emitEventRun [cbOk 0] 5 ++ (1, some "listener crashed") :: emitEventRun [cbOk 2] 5
    ∧ (emitEventRun ([cbOk 0] ++ cbThrow 1 :: [cbOk 2]) 5).map Prod.fst
      = ([cbOk 0] ++ cbThrow 1 :: [cbOk 2]).map Callback.id :=
  emitEvent_isolates_listener_failures [cbOk 0] [cbOk 2] (cbThrow 1) 5 "listener crashed" rfl

/-- With the connection up and a socket handle present, draining a
queue of length `n` transmits its entries in FIFO order and leaves the
queue empty. -/
theorem drainLoop_flush (q t : List (String × Nat)) :
    drainLoop q.length ⟨true, true, q, t⟩ = ⟨true, true, [], t ++ q⟩ := by
  induction q generalizing t with
  | nil => simp [drainLoop]
  | cons m rest ih =>
      obtain ⟨ev, d⟩ := m
      simpa [drainLoop, emit, List.append_assoc] using ih (t ++ [(ev, d)])

/-- C5: `emit` while disconnected only appends the `(event, payload)`
pair to the outbound queue (the function is total — no "not connected"
exception exists), and the connect-success handler flushes the whole
queue so that every queued message is transmitted exactly once, in its
original FIFO order, leaving the queue empty. -/
theorem send_queues_then_flushes_fifo :
    (∀ (s : QueueSt) (ev : String) (d : Nat), s.isConnected = false →
        emit ev d s = { s with messageQueue := s.messageQueue ++ [(ev, d)] })
    ∧ (∀ s : QueueSt, onConnectSuccess s
        = ⟨true, true, [], s.transmitted ++ s.messageQueue⟩) := by
  constructor
  · intro s ev d h
    simp [emit, h]
  · intro s
    obtain ⟨c, sp, q, t⟩ := s
    simpa [onConnectSuccess, processMessageQueue] using drainLoop_flush q t

/-- Witness for C5 at a concrete input: one message sent while
disconnected, then a successful connection. -/
theorem send_queues_then_flushes_fifo_witness :
    emit "call:accept" 3 ⟨false, false, [], []⟩ = ⟨false, false, [("call:accept", 3)], []⟩
    ∧ onConnectSuccess ⟨false, false, [("call:accept", 3)], []⟩
        = ⟨true, true, [], [("call:accept", 3)]⟩ :=
  ⟨send_queues_then_flushes_fifo.1 ⟨false, false, [], []⟩ "call:accept" 3 rfl,
   send_queues_then_flushes_fifo.2 ⟨false, false, [("call:accept", 3)], []⟩⟩

/-- Counterexample to C6 as stated: when the transport exhausts its
reconnection attempts, the service surfaces `reconnection_failed` — no
`connection_failed` event is ever surfaced during the exhaustion
scenario. -/
theorem reconnect_failed_event_name_cx :
    ¬ ("connection_failed" ∈ (reconnectExhausted connSt0 [1, 2, 3]).emitted)
    ∧ (reconnectExhausted connSt0 [1, 2, 3]).emitted
        = ["disconnection", "reconnection_attempt", "reconnection_attempt",
           "reconnection_attempt", "reconnection_failed"] := by
  decide

/-- The reconnect-attempt handlers never touch the connection flag or
the registered handler map. -/
theorem reconnectAttempts_fold_preserves (attempts : List Nat) (s : ConnSt) :
    ((attempts.foldl (fun acc n => onReconnectAttempt n acc) s).isConnected = s.isConnected)
    ∧ ((attempts.foldl (fun acc n => onReconnectAttempt n acc) s).eventListeners
        = s.eventListeners) := by
  induction attempts generalizing s with
  | nil => exact ⟨rfl, rfl⟩
  | cons n rest ih =>
      simp only [List.foldl_cons]
      have h := ih (onReconnectAttempt n s)
      have h1 : (onReconnectAttempt n s).isConnected = s.isConnected := by
        by_cases hc : s.isConnecting = true <;> simp [onReconnectAttempt, hc]
      have h2 : (onReconnectAttempt n s).eventListeners = s.eventListeners := by
        by_cases hc : s.isConnecting = true <;> simp [onReconnectAttempt, hc]
      exact ⟨h.1.trans h1, h.2.trans h2⟩

/-- C6 (amended): reconnection is bounded by the `io(...)` options
(3 attempts, delay rising from 2000 ms up to 10000 ms); after the
transport exhausts them, the service surfaces a `reconnection_failed`
event (not `connection_failed`), ends up not connected and not
connecting, and does not clear its registered handlers. -/
theorem reconnect_exhaustion_behavior (s : ConnSt) (attempts : List Nat) :
    (reconnectExhausted s attempts).isConnected = false
    ∧ (reconnectExhausted s attempts).isConnecting = false
    ∧ (reconnectExhausted s attempts).eventListeners = s.eventListeners
    ∧ (reconnectExhausted s attempts).emitted.getLast? = some "reconnection_failed"
    ∧ ioReconnectionAttempts = 3 ∧ ioReconnectionDelayMs = 2000
    ∧ ioReconnectionDelayMaxMs = 10000 := by
  have hf := reconnectAttempts_fold_preserves attempts (onDisconnect s)
  refine ⟨?_, rfl, ?_, ?_, rfl, rfl, rfl⟩
  · simpa [reconnectExhausted, onReconnectFailed, onDisconnect] using hf.1
  · simpa [reconnectExhausted, onReconnectFailed, onDisconnect] using hf.2
  · simp [reconnectExhausted, onReconnectFailed]

end SocketService

namespace SocketService

/-- The underscore-format signaling names all contain `"webrtc"`, so
`on` drains the buffer for them. -/
theorem strContains_webrtc_offer : strContains "webrtc_offer" "webrtc" = true := by decide

/-- See `strContains_webrtc_offer`. -/
theorem strContains_webrtc_answer : strContains "webrtc_answer" "webrtc" = true := by decide

/-- See `strContains_webrtc_offer`. -/
theorem strContains_webrtc_ice : strContains "webrtc_ice_candidate" "webrtc" = true := by
  decide

/-- Emitting to a single registered listener appends one delivery per
payload, in payload order. -/
theorem foldl_emitEvent_single (ev : String) (h : Nat) (ds : List Nat) (s : BufSt)
    (hl : listenersOf s ev = [h]) :
    ds.foldl (fun acc d => emitEvent ev d acc) s
      = { s with deliveries := s.deliveries ++ ds.map (fun d => (ev, d, h)) } := by
  induction ds generalizing s with
  | nil => simp
  | cons d rest ih =>
      have hstep : emitEvent ev d s = { s with deliveries := s.deliveries ++ [(ev, d, h)] } := by
        simp [emitEvent, hl]
      have hl' : listenersOf { s with deliveries := s.deliveries ++ [(ev, d, h)] } ev = [h] := hl
      simp only [List.foldl_cons, hstep, ih _ hl']
      simp

/-- Emitting with no registered listener delivers nothing and leaves
the state unchanged. -/
theorem foldl_emitEvent_none (ev : String) (ds : List Nat) (s : BufSt)
    (hl : listenersOf s ev = []) :
    ds.foldl (fun acc d => emitEvent ev d acc) s = s := by
  induction ds with
  | nil => rfl
  | cons d rest ih =>
      have hstep : emitEvent ev d s = s := by simp [emitEvent, hl]
      simp only [List.foldl_cons, hstep, ih]

/-- A colon-format arrival on a service whose only stored entry is for
the same event and which has no listeners: the payload is appended to
the buffer and nothing is delivered. -/
theorem colonArrive_buffer (ev : String) (d : Nat) (acc : List Nat)
    (dl : List (String × Nat × Nat)) :
    colonArrive ev d ⟨[], [(ev, acc)], dl⟩ = ⟨[], [(ev, acc ++ [d])], dl⟩ := by
  simp [colonArrive, listenersOf, storeWebRTCEvent, assocUpdate, emitEvent]

/-- A colon-format arrival on a listener-free, buffer-free service
creates the buffer entry. -/
theorem colonArrive_init (ev : String) (d : Nat) (dl : List (String × Nat × Nat)) :
    colonArrive ev d ⟨[], [], dl⟩ = ⟨[], [(ev, [d])], dl⟩ := by
  simp [colonArrive, listenersOf, storeWebRTCEvent, assocUpdate, emitEvent]

/-- A colon-format arrival with a listener registered under the event
name: delivered immediately, nothing stored. -/
theorem colonArrive_live (ev : String) (h d : Nat) (dl : List (String × Nat × Nat)) :
    colonArrive ev d ⟨[(ev, [h])], [], dl⟩ = ⟨[(ev, [h])], [], dl ++ [(ev, d, h)]⟩ := by
  simp [colonArrive, listenersOf, emitEvent, List.lookup]

/-- Listener-free colon-format arrivals accumulate in the buffer in
arrival order, delivering nothing. -/
theorem run_buffering (ev : String) (ds acc : List Nat) (dl : List (String × Nat × Nat)) :
    ds.foldl (fun s d => colonArrive ev d s) ⟨[], [(ev, acc)], dl⟩
      = ⟨[], [(ev, acc ++ ds)], dl⟩ := by
  induction ds generalizing acc with
  | nil => simp
  | cons d rest ih =>
      simp only [List.foldl_cons, colonArrive_buffer, ih]
      simp

/-- Colon-format arrivals with a listener already registered are each
delivered once on arrival; the buffer stays empty. -/
theorem run_delivering (ev : String) (h : Nat) (ds : List Nat)
    (dl : List (String × Nat × Nat)) :
    ds.foldl (fun s d => colonArrive ev d s) ⟨[(ev, [h])], [], dl⟩
      = ⟨[(ev, [h])], [], dl ++ ds.map (fun d => (ev, d, h))⟩ := by
  induction ds generalizing dl with
  | nil => simp
  | cons d rest ih =>
      simp only [List.foldl_cons, colonArrive_live, ih]
      simp

/-- Registering on a fresh (buffer-free, listener-free) service for a
`webrtc` event just records the listener. -/
theorem onEvent_fresh (ev : String) (h : Nat) (dl : List (String × Nat × Nat))
    (hw : strContains ev "webrtc" = true) :
    onEvent ev h ⟨[], [], dl⟩ = ⟨[(ev, [h])], [], dl⟩ := by
  simp [onEvent, addListener, assocUpdate, hw, processStoredWebRTCEvents, List.lookup]

/-- Registering on a service whose buffer holds `ds` under the same
event name replays every buffered payload to the new listener in order
and clears the buffer. -/
theorem onEvent_drains (ev : String) (h : Nat) (ds : List Nat)
    (dl : List (String × Nat × Nat)) (hw : strContains ev "webrtc" = true) :
    onEvent ev h ⟨[], [(ev, ds)], dl⟩
      = ⟨[(ev, [h])], [], dl ++ ds.map (fun d => (ev, d, h))⟩ := by
  have hadd : addListener ev h ⟨[], [(ev, ds)], dl⟩ = ⟨[(ev, [h])], [(ev, ds)], dl⟩ := by
    simp [addListener, assocUpdate]
  have hl : listenersOf ⟨[(ev, [h])], [(ev, ds)], dl⟩ ev = [h] := by
    simp [listenersOf, List.lookup]
  simp only [onEvent, hadd, hw, if_true, processStoredWebRTCEvents]
  simp only [List.lookup, beq_self_eq_true, foldl_emitEvent_single ev h ds _ hl]
  simp [assocErase]

/-- Listener-free colon-format arrivals followed by a first
registration: exactly-once replay in arrival order, buffer cleared. -/
theorem buffer_then_register (ev : String) (hw : strContains ev "webrtc" = true)
    (ds : List Nat) (h : Nat) :
    onEvent ev h (ds.foldl (fun s d => colonArrive ev d s) BufSt.init)
      = ⟨[(ev, [h])], [], ds.map (fun d => (ev, d, h))⟩ := by
  cases ds with
  | nil => simpa [BufSt.init] using onEvent_fresh ev h [] hw
  | cons d rest =>
      show onEvent ev h ((d :: rest).foldl (fun s d => colonArrive ev d s) ⟨[], [], []⟩) = _
      simp only [List.foldl_cons, colonArrive_init, run_buffering]
      simpa using onEvent_drains ev h ([d] ++ rest) [] hw

end SocketService

namespace SocketService

/-- Counterexample to C1 as stated: a `webrtc:answer` signaling event
that arrives before any handler is registered is neither buffered nor
replayed — after a handler registers, the event has been delivered zero
times (silently dropped), not exactly once.  The same happens to an
underscore-format `webrtc_offer` arrival. -/
theorem answer_arrival_dropped_cx :
    (bufRun BufSt.init [BufOp.arriveAnswerC 7, BufOp.register "webrtc_answer" 1]).deliveries
      = []
    ∧ (bufRun BufSt.init [BufOp.arriveOfferU 8, BufOp.register "webrtc_offer" 2]).deliveries
      = [] := by
  decide

/-- C1 (amended): the buffer-and-replay discipline holds only for the
colon-format offer and ICE-candidate arrivals.  (a)/(b) such events
arriving with no registered handler are buffered and, on the first
subsequent registration for that event name, replayed to the new
handler exactly once each, in arrival order, with the buffer cleared;
(c) with a handler registered before arrival they are delivered exactly
once on arrival and nothing is buffered; (d)/(e) colon-format answer
events and underscore-format events arriving with no handler are
silently dropped: nothing is ever delivered, even after a handler
registers. -/
theorem signal_buffer_exactly_once_amended :
    (∀ (ds : List Nat) (h : Nat),
      bufRun BufSt.init (ds.map BufOp.arriveOfferC ++ [BufOp.register "webrtc_offer" h])
        = ⟨[("webrtc_offer", [h])], [], ds.map (fun d => ("webrtc_offer", d, h))⟩)
    ∧ (∀ (ds : List Nat) (h : Nat),
      bufRun BufSt.init
          (ds.map BufOp.arriveIceC ++ [BufOp.register "webrtc_ice_candidate" h])
        = ⟨[("webrtc_ice_candidate", [h])], [],
           ds.map (fun d => ("webrtc_ice_candidate", d, h))⟩)
    ∧ (∀ (ds : List Nat) (h : Nat),
      bufRun BufSt.init (BufOp.register "webrtc_offer" h :: ds.map BufOp.arriveOfferC)
        = ⟨[("webrtc_offer", [h])], [], ds.map (fun d => ("webrtc_offer", d, h))⟩)
    ∧ (∀ (ds : List Nat) (h : Nat),
      (bufRun BufSt.init
          (ds.map BufOp.arriveAnswerC ++ [BufOp.register "webrtc_answer" h])).deliveries
        = [])
    ∧ (∀ (ds : List Nat) (h : Nat),
      (bufRun BufSt.init
          (ds.map BufOp.arriveOfferU ++ [BufOp.register "webrtc_offer" h])).deliveries
        = []) := by
  refine ⟨?_, ?_, ?_, ?_, ?_⟩
  · intro ds h
    show List.foldl bufStep BufSt.init _ = _
    rw [List.foldl_append, List.foldl_map]
    simp only [bufStep, List.foldl_cons, List.foldl_nil]
    exact buffer_then_register "webrtc_offer" strContains_webrtc_offer ds h
  · intro ds h
    show List.foldl bufStep BufSt.init _ = _
    rw [List.foldl_append, List.foldl_map]
    simp only [bufStep, List.foldl_cons, List.foldl_nil]
    exact buffer_then_register "webrtc_ice_candidate" strContains_webrtc_ice ds h
  · intro ds h
    show List.foldl bufStep BufSt.init _ = _
    simp only [List.foldl_cons, List.foldl_map, bufStep]
    rw [show onEvent "webrtc_offer" h BufSt.init = ⟨[("webrtc_offer", [h])], [], []⟩ from
      onEvent_fresh "webrtc_offer" h [] strContains_webrtc_offer]
    simpa using run_delivering "webrtc_offer" h ds []
  · intro ds h
    show (List.foldl bufStep BufSt.init _).deliveries = _
    rw [List.foldl_append, List.foldl_map]
    simp only [bufStep, List.foldl_cons, List.foldl_nil]
    rw [foldl_emitEvent_none "webrtc_answer" ds BufSt.init rfl]
    unfold BufSt.init
    rw [onEvent_fresh "webrtc_answer" h [] strContains_webrtc_answer]
  · intro ds h
    show (List.foldl bufStep BufSt.init _).deliveries = _
    rw [List.foldl_append, List.foldl_map]
    simp only [bufStep, List.foldl_cons, List.foldl_nil]
    rw [foldl_emitEvent_none "webrtc_offer" ds BufSt.init rfl]
    unfold BufSt.init
    rw [onEvent_fresh "webrtc_offer" h [] strContains_webrtc_offer]

end SocketService

namespace VideoCall

/-- C8: while a call is connected, quality is sampled on a 5000 ms
period, and the sampled (packet-loss %, bitrate kbps) pair maps to the
tier exactly as the specification states; when the peer connection is
not in the `connected` state, a monitoring tick changes nothing. -/
theorem quality_monitoring_spec :
    qualityCheckIntervalMs = 5000
    ∧ (∀ loss bitrate : ℚ, computeConnectionQuality loss bitrate = specQualityTier loss bitrate)
    ∧ (∀ (loss bitrate : ℚ) (s : CallSt) (pc : PeerConn),
        s.peerConnection = some pc → pc.connectionState ≠ ConnState.connected →
        qualityTick loss bitrate s = s) := by
  refine ⟨rfl, fun _ _ => rfl, ?_⟩
  intro loss br s pc hpc hcs
  simp [qualityTick, hpc, hcs]

/-- Witness for C8's guard at a concrete input: a tick on a
not-yet-connected peer connection changes nothing. -/
theorem quality_monitoring_spec_witness :
    qualityTick 10 100 liveCallSt = liveCallSt :=
  quality_monitoring_spec.2.2 10 100 liveCallSt basePC rfl (by decide)

/-- Counterexample to C10 as stated: `rejectCall` — here with a live
local stream of tracks `[1, 2]` and an open peer connection — reaches
the `rejected` status and invokes `onCallEnd`, but stops no track and
neither closes nor releases the peer connection (no `cleanup` on either
path of `rejectCall`). -/
theorem rejectCall_no_cleanup_cx :
    (rejectCall (some 5) false liveCallSt).stoppedTracks = []
    ∧ (rejectCall (some 5) false liveCallSt).peerConnection = some basePC
    ∧ (rejectCall (some 5) false liveCallSt).pcClosedCount = 0
    ∧ (rejectCall (some 5) false liveCallSt).localStream = some [1, 2]
    ∧ (rejectCall (some 5) false liveCallSt).callStatus = CallStatus.rejected
    ∧ (rejectCall (some 5) false liveCallSt).onCallEndInvoked = true := by
  decide

/-- C10 (amended): whatever the call identifier and whether or not the
server request throws, `endCall` always reaches `ended`, stops every
local and screen-share track, closes and releases the peer connection,
and invokes `onCallEnd`; `rejectCall` always reaches `rejected` and
invokes `onCallEnd`, but performs no media cleanup itself — streams and
peer connection are left untouched (their release is deferred to the
component unmount cleanup). -/
theorem end_reject_terminal_behavior (cid : Option Nat) (b : Bool) (s : CallSt) :
    (endCall cid b s).callStatus = CallStatus.ended
    ∧ (endCall cid b s).onCallEndInvoked = true
    ∧ (endCall cid b s).peerConnection = none
    ∧ (endCall cid b s).pcClosedCount
        = s.pcClosedCount + (if s.peerConnection.isSome then 1 else 0)
    ∧ (endCall cid b s).stoppedTracks
        = s.stoppedTracks ++ s.localStream.getD [] ++ s.screenStream.getD []
    ∧ (endCall cid b s).localStream = none
    ∧ (endCall cid b s).screenStream = none
    ∧ (rejectCall cid b s).callStatus = CallStatus.rejected
    ∧ (rejectCall cid b s).onCallEndInvoked = true
    ∧ (rejectCall cid b s).stoppedTracks = s.stoppedTracks
    ∧ (rejectCall cid b s).peerConnection = s.peerConnection
    ∧ (rejectCall cid b s).localStream = s.localStream := by
  obtain ⟨cs, pc, ps, q, em, ls, ss, st, pcc, ws, dt, qt, lv, rv, oe, sa, se, sr⟩ := s
  cases cid <;> cases b <;> cases ls <;> cases ss <;> cases pc <;>
    simp [endCall, cleanup, rejectCall]

end VideoCall

namespace VideoCall

/-- Counterexample to C2 as stated: two offer events for the current
call (`callId = 4`, offers `10` then `11`) each reach
`setRemoteDescription` — the second application is not a no-op: the
media engine receives two remote-description applications and two
generated answers are sent (a second negotiation attempt). -/
theorem offer_reapplies_remote_description_cx :
    ((handleIncomingOfferEvent 4 (offerEv 4 11) [1]
        (handleIncomingOfferEvent 4 (offerEv 4 10) [1] baseCallSt)).peerConnection.map
      PeerConn.appliedRemoteDescs) = some [10, 11]
    ∧ (handleIncomingOfferEvent 4 (offerEv 4 11) [1]
        (handleIncomingOfferEvent 4 (offerEv 4 10) [1] baseCallSt)).sentAnswers
      = [10, 11] := by
  decide

/-- C2 (amended): only the answer path is idempotence-guarded — for
every incoming answer event handled while the session's remote
description is already set, the handler leaves the peer connection (and
hence the trace of remote-description applications) untouched; offer
events, by contrast, re-apply the description (see the
counterexample). -/
theorem answer_remote_description_guarded (cid : Nat) (d : EvData) (s : CallSt)
    (pc : PeerConn) (hpc : s.peerConnection = some pc)
    (hset : pc.remoteDescription.isSome = true) :
    (handleIncomingAnswer cid d s).peerConnection = some pc := by
  by_cases hcond : (d.callId = cid ∨ s.callStatus = CallStatus.connected
      ∨ s.callStatus = CallStatus.ringing)
  · cases ha : d.answer with
    | none => simp [handleIncomingAnswer, hcond, hpc, ha]
    | some a =>
        have hne : ¬ pc.remoteDescription = none := by
          cases hrd : pc.remoteDescription <;> simp_all
        simp [handleIncomingAnswer, hcond, hpc, ha, hne]
  · simp [handleIncomingAnswer, hcond, queueSignal, hpc]

/-- Witness for C2's amended guard at a concrete input: an answer
arriving after the remote description `10` is already applied leaves
the peer connection untouched. -/
theorem answer_remote_description_guarded_witness :
    (handleIncomingAnswer 4 ⟨4, none, some 20, none⟩
        { baseCallSt with peerConnection := some (setRemoteDescription 10 basePC) }).peerConnection
      = some (setRemoteDescription 10 basePC) :=
  answer_remote_description_guarded 4 ⟨4, none, some 20, none⟩
    { baseCallSt with peerConnection := some (setRemoteDescription 10 basePC) }
    (setRemoteDescription 10 basePC) rfl rfl

end VideoCall

namespace VideoCall

/-- Counterexample to C3 as stated: an ICE candidate arriving for the
current call (`callId = 4`) before the remote description exists —
here, before the peer connection itself exists — is neither applied nor
appended to the pending queue: the handler returns the state unchanged,
silently discarding the candidate. -/
theorem ice_without_pc_dropped_cx :
    handleIncomingIceCandidate 4 (iceEv 4 99) baseCallSt = baseCallSt
    ∧ pendingOf (handleIncomingIceCandidate 4 (iceEv 4 99) baseCallSt) 4 = [] := by
  decide

/-- Looking a key up after `pendUpdate` on that key yields the update
applied to the previous value (`[]` when absent). -/
theorem lookup_pendUpdate_self (k : Nat)
    (f : List (SigKind × EvData) → List (SigKind × EvData))
    (l : List (Nat × List (SigKind × EvData))) :
    (pendUpdate k f l).lookup k = some (f ((l.lookup k).getD [])) := by
  induction l with
  | nil => simp [pendUpdate, List.lookup]
  | cons p t ih =>
      obtain ⟨k', v⟩ := p
      by_cases hk : k' = k
      · subst hk
        simp [pendUpdate, List.lookup]
      · have hbeq : (k == k') = false := by
          simpa using fun hh => hk hh.symm
        simp [pendUpdate, List.lookup, hk, hbeq, ih]

/-- Rewriting of `pendingOf` as a `getD` over the raw lookup. -/
theorem pendingOf_eq_getD (s : CallSt) (k : Nat) :
    pendingOf s k = (s.pendingSignals.lookup k).getD [] := by
  cases h : s.pendingSignals.lookup k <;> simp [pendingOf, h]

/-- Appending: `queueSignal` appends the event to the pending list of its call. -/
theorem pendingOf_queueSignal (k : SigKind) (d : EvData) (s : CallSt) :
    pendingOf (queueSignal k d s) d.callId = pendingOf s d.callId ++ [(k, d)] := by
  simp [pendingOf_eq_getD, queueSignal, lookup_pendUpdate_self]

/-- An ICE candidate arriving for the current call while the remote
description is not yet set is queued (jsx:196-199). -/
theorem ice_step_queues (cid c : Nat) (s : CallSt) (pc : PeerConn)
    (hpc : s.peerConnection = some pc) (hrd : pc.remoteDescription = none) :
    handleIncomingIceCandidate cid (iceEv cid c) s
      = queueSignal SigKind.iceCandidate (iceEv cid c) s := by
  simp [handleIncomingIceCandidate, iceEv, hpc, hrd]

/-- A run of early ICE arrivals for the current call applies nothing to
the peer connection and accumulates the candidates, in arrival order,
in the pending queue of that call. -/
theorem ice_arrivals_queue (cid : Nat) (cs : List Nat) (s : CallSt) (pc : PeerConn)
    (hpc : s.peerConnection = some pc) (hrd : pc.remoteDescription = none) :
    ((cs.foldl (fun acc c => handleIncomingIceCandidate cid (iceEv cid c) acc) s).peerConnection
        = some pc)
    ∧ pendingOf (cs.foldl (fun acc c => handleIncomingIceCandidate cid (iceEv cid c) acc) s) cid
        = pendingOf s cid ++ cs.map (fun c => (SigKind.iceCandidate, iceEv cid c)) := by
  induction cs generalizing s with
  | nil => exact ⟨hpc, by simp⟩
  | cons c rest ih =>
      simp only [List.foldl_cons]
      rw [ice_step_queues cid c s pc hpc hrd]
      obtain ⟨h1, h2⟩ := ih (queueSignal SigKind.iceCandidate (iceEv cid c) s) hpc
      refine ⟨h1, ?_⟩
      rw [h2,
        show pendingOf (queueSignal SigKind.iceCandidate (iceEv cid c) s) cid
            = pendingOf s cid ++ [(SigKind.iceCandidate, iceEv cid c)] from
          pendingOf_queueSignal SigKind.iceCandidate (iceEv cid c) s]
      simp

/-- Folding `applyQueuedStep` over an all-candidate queue applies every
candidate to the peer connection in order. -/
theorem applyQueued_fold (cid : Nat) (cs : List Nat) (s : CallSt) (pc : PeerConn)
    (hpc : s.peerConnection = some pc) :
    (cs.map (fun c => (SigKind.iceCandidate, iceEv cid c))).foldl applyQueuedStep s
      = { s with peerConnection := some { pc with addedIceCandidates := pc.addedIceCandidates ++ cs } } := by
  induction cs generalizing s pc with
  | nil =>
      obtain ⟨cs', pcf, ps, q, em, ls, ss, st, pcc, ws, dt, qt, lv, rv, oe, sa, se, sr⟩ := s
      obtain ⟨rd, ld, ar, ai, cst⟩ := pc
      simp only [CallSt.mk.injEq] at hpc ⊢
      simp_all
  | cons c rest ih =>
      simp only [List.map_cons, List.foldl_cons]
      rw [show applyQueuedStep s (SigKind.iceCandidate, iceEv cid c)
            = { s with peerConnection := some (addIceCandidate c pc) } from by
          simp [applyQueuedStep, hpc, iceEv]]
      rw [ih _ (addIceCandidate c pc) rfl]
      simp [addIceCandidate]

end VideoCall


namespace VideoCall

/-- Draining an all-candidate pending queue applies every queued
candidate in arrival order and leaves the call's pending queue empty. -/
theorem drain_applies_all (cid : Nat) (cs : List Nat) (s : CallSt) (pc : PeerConn)
    (hpc : s.peerConnection = some pc)
    (hpend : pendingOf s cid = cs.map (fun c => (SigKind.iceCandidate, iceEv cid c))) :
    (processQueuedIceCandidates cid s).peerConnection
      = some { pc with addedIceCandidates := pc.addedIceCandidates ++ cs }
    ∧ pendingOf (processQueuedIceCandidates cid s) cid = [] := by
  have hfilter : (pendingOf s cid).filter (fun p => p.1 = SigKind.iceCandidate)
      = cs.map (fun c => (SigKind.iceCandidate, iceEv cid c)) := by
    rw [hpend]
    refine List.filter_eq_self.mpr ?_
    intro a ha
    obtain ⟨c, _, rfl⟩ := List.mem_map.mp ha
    simp
  cases cs with
  | nil =>
      have hq : (pendingOf s cid).filter (fun p => p.1 = SigKind.iceCandidate) = [] := by
        simpa using hfilter
      have hp0 : pendingOf s cid = [] := by simpa using hpend
      refine ⟨?_, ?_⟩ <;> simp [processQueuedIceCandidates, hq, hpc, hp0]
  | cons c rest =>
      have hfold := applyQueued_fold cid (c :: rest) s pc hpc
      have hkeep : ((c :: rest).map (fun c => (SigKind.iceCandidate, iceEv cid c))).filter
          (fun p => ¬ p.1 = SigKind.iceCandidate) = [] := by
        refine List.filter_eq_nil_iff.mpr ?_
        intro a ha
        obtain ⟨c', _, rfl⟩ := List.mem_map.mp ha
        simp
      simp only [processQueuedIceCandidates, hfilter, hfold]
      rw [if_pos (by simp : (0 : Nat)
        < ((c :: rest).map (fun c => (SigKind.iceCandidate, iceEv cid c))).length)]
      refine ⟨rfl, ?_⟩
      simp only [pendingOf_eq_getD, lookup_pendUpdate_self, Option.getD_some]
      have hlook : (List.lookup cid s.pendingSignals).getD []
          = (c :: rest).map (fun c => (SigKind.iceCandidate, iceEv cid c)) :=
        (pendingOf_eq_getD s cid).symm.trans hpend
      simp [hlook, hkeep]

end VideoCall

namespace VideoCall

/-- C3 (amended): provided the peer connection exists, every ICE
candidate arriving for the current call before the remote description
is set is appended to that call's pending queue in arrival order, and
none is applied or raises an error; draining the queue (which both the
offer and the answer handler do immediately after applying the remote
description) applies all queued candidates in their original arrival
order and empties the call's pending candidate queue.  A candidate
arriving while the peer connection does not exist, however, is silently
discarded (see the counterexample). -/
theorem ice_candidates_queued_then_drained (cid : Nat) (cs : List Nat) (s : CallSt)
    (pc : PeerConn) (hpc : s.peerConnection = some pc)
    (hrd : pc.remoteDescription = none) :
    ((cs.foldl (fun acc c => handleIncomingIceCandidate cid (iceEv cid c) acc) s).peerConnection
        = some pc)
    ∧ pendingOf (cs.foldl (fun acc c => handleIncomingIceCandidate cid (iceEv cid c) acc) s) cid
        = pendingOf s cid ++ cs.map (fun c => (SigKind.iceCandidate, iceEv cid c))
    ∧ (∀ (s2 : CallSt) (pc2 : PeerConn), s2.peerConnection = some pc2 →
        pendingOf s2 cid = cs.map (fun c => (SigKind.iceCandidate, iceEv cid c)) →
        (processQueuedIceCandidates cid s2).peerConnection
          = some { pc2 with addedIceCandidates := pc2.addedIceCandidates ++ cs }
        ∧ pendingOf (processQueuedIceCandidates cid s2) cid = []) :=
  ⟨(ice_arrivals_queue cid cs s pc hpc hrd).1,
   (ice_arrivals_queue cid cs s pc hpc hrd).2,
   fun s2 pc2 h1 h2 => drain_applies_all cid cs s2 pc2 h1 h2⟩

/-- Witness for C3's amended theorem at concrete inputs: three early
candidates `7, 8, 9` for call `4` are queued in order, and draining a
pending queue holding exactly those three applies them in order and
empties the queue. -/
theorem ice_candidates_queued_then_drained_witness :
    (([7, 8, 9].foldl (fun acc c => handleIncomingIceCandidate 4 (iceEv 4 c) acc)
        { baseCallSt with peerConnection := some basePC }).peerConnection = some basePC)
    ∧ pendingOf ([7, 8, 9].foldl (fun acc c => handleIncomingIceCandidate 4 (iceEv 4 c) acc)
        { baseCallSt with peerConnection := some basePC }) 4
      = pendingOf { baseCallSt with peerConnection := some basePC } 4
        ++ [7, 8, 9].map (fun c => (SigKind.iceCandidate, iceEv 4 c))
    ∧ ((processQueuedIceCandidates 4
          { baseCallSt with peerConnection := some basePC, pendingSignals := [(4, [7, 8, 9].map (fun c => (SigKind.iceCandidate, iceEv 4 c)))] }).peerConnection
        = some { basePC with addedIceCandidates := basePC.addedIceCandidates ++ [7, 8, 9] }
      ∧ pendingOf (processQueuedIceCandidates 4
          { baseCallSt with peerConnection := some basePC, pendingSignals := [(4, [7, 8, 9].map (fun c => (SigKind.iceCandidate, iceEv 4 c)))] }) 4
        = []) := by
  have h := ice_candidates_queued_then_drained 4 [7, 8, 9]
    { baseCallSt with peerConnection := some basePC } basePC rfl rfl
  exact ⟨h.1, h.2.1, h.2.2 _ basePC rfl rfl⟩

end VideoCall

namespace ChatPage

/-- Counterexample to C4 as stated: while call `1` is active and
non-terminal, an incoming-call event for a different call `2` is not
rejected — no error is surfaced — and it is not dropped either: it is
stored as the pending incoming call (queued for the user to accept or
reject). -/
theorem second_incoming_not_rejected_cx :
    (handleIncomingCall secondIncoming busyPageSt).incomingCall = some secondIncoming
    ∧ (handleIncomingCall secondIncoming busyPageSt).errorMsg = none
    ∧ (handleIncomingCall secondIncoming busyPageSt).activeCall = busyPageSt.activeCall := by
  decide

/-- C4 (amended): while a call is active, a second `initiate` intent is
rejected synchronously with the "Another call is already active" error
— no HTTP request is made and nothing is queued; a second *incoming*
call event with a different call identifier, however, is stored as the
pending incoming call rather than rejected; and a `call_ended` event
clears the active call. -/
theorem single_active_call_policy (s : PageSt) (chat : Nat) (ctype : String)
    (outcome : Except String InitResult)
    (h : s.activeCall.isSome = true) :
    handleCallInitiate chat ctype outcome s
      = { s with errorMsg := some "Another call is already active" }
    ∧ (∀ (d : IncomingData) (ac : ActiveCall), s.activeCall = some ac → ac.callId ≠ d.callId →
        handleIncomingCall d s = { s with incomingCall := some d })
    ∧ (handleCallEnded s).activeCall = none := by
  refine ⟨by simp [handleCallInitiate, h], ?_, rfl⟩
  intro d ac hac hne
  simp [handleIncomingCall, hac, hne]

/-- Witness for C4's amended theorem at concrete inputs. -/
theorem single_active_call_policy_witness :
    handleCallInitiate 10 "video" (Except.ok ⟨true, 3, 10, "video", "ringing"⟩) busyPageSt
      = { busyPageSt with errorMsg := some "Another call is already active" }
    ∧ handleIncomingCall secondIncoming busyPageSt
      = { busyPageSt with incomingCall := some secondIncoming }
    ∧ (handleCallEnded busyPageSt).activeCall = none := by
  have h := single_active_call_policy busyPageSt 10 "video"
    (Except.ok ⟨true, 3, 10, "video", "ringing"⟩) rfl
  exact ⟨h.1, h.2.1 secondIncoming ⟨1, 10, "audio", "ringing"⟩ rfl (by decide), h.2.2⟩

/-- C7: a duplicate acceptance — an accept intent while the pending
incoming call's identifier equals the active call's, or an incoming
(replayed) signal for the already-active call — is treated as a status
reconciliation: the active call's status becomes `connected`, the
pending incoming call is cleared, no HTTP accept request is issued, and
no error is raised or surfaced. -/
theorem duplicate_accept_reconciles (s : PageSt) (ic : IncomingData) (ac : ActiveCall)
    (outcome : Except String Bool)
    (hic : s.incomingCall = some ic) (hac : s.activeCall = some ac)
    (hid : ac.callId = ic.callId) :
    handleAcceptIncomingCall outcome s
      = { s with activeCall := some { ac with status := "connected" }, incomingCall := none }
    ∧ (handleAcceptIncomingCall outcome s).errorMsg = s.errorMsg
    ∧ (handleAcceptIncomingCall outcome s).acceptRequests = s.acceptRequests
    ∧ (∀ (d : IncomingData), ac.callId = d.callId →
        handleIncomingCall d s
          = { s with activeCall := some { ac with status := "connected" } }) := by
  have h1 : handleAcceptIncomingCall outcome s
      = { s with activeCall := some { ac with status := "connected" }, incomingCall := none } := by
    simp [handleAcceptIncomingCall, hic, hac, hid]
  refine ⟨h1, by rw [h1], by rw [h1], ?_⟩
  intro d hd
  simp [handleIncomingCall, hac, hd]

/-- Witness for C7 at a concrete input: accepting while call `1` is
already active and the pending incoming call is also `1`. -/
theorem duplicate_accept_reconciles_witness :
    handleAcceptIncomingCall (Except.ok true)
        { busyPageSt with incomingCall := some ⟨1, 10, "audio"⟩ }
      = ⟨some ⟨1, 10, "audio", "connected"⟩, none, none, [], [], []⟩ := by
  have h := duplicate_accept_reconciles
    { busyPageSt with incomingCall := some ⟨1, 10, "audio"⟩ }
    ⟨1, 10, "audio"⟩ ⟨1, 10, "audio", "ringing"⟩ (Except.ok true) rfl rfl rfl
  exact h.1

end ChatPage
